import Mathlib

/-!
# grpool: a shallow embedding of the goroutine pool and its future tasks

The Go sources embedded here are `error.go`, `future_task.go`,
`future_executor.go`, `async_executor.go` and `pool.go`.

Conventions of the embedding.

* A Go channel is a record of its buffered elements, its capacity, its
  closed flag and its parked receivers.  Only the non-blocking and the
  blocking `select` forms used by the sources are embedded.
* The Go type `int` is 64 bits wide; `make` faults as the runtime function
  `makechan` does on such a platform.
* A Go `panic` is the `error` side of `Except Panic`.
* A blocking receive on `resultChan` or on a timer that cannot proceed is
  `none`: the call is not made in that state.  (Both channels have capacity
  1, so a send to a parked receiver and a send into the empty buffer followed
  by the receive are the same.)  The master of a pool parks on `taskChan`,
  whose capacity may be 0, and that is embedded as parking.
* Every method call is one atomic step on an explicit state.
* `Wait` and `WaitWithTimeout` touch each task only when they reach it (and,
  for the tasks after a timeout, from the cascading `Abort` on).  The list of
  tasks they are given holds each task in the state it has at that moment;
  what the goroutines of the pool do to a task before that moment is part of
  that state.
-/

namespace Grpool

/-! ## Values of the Go program -/

/-- Values of the Go interface type `error`, `nil` excluded (a possibly-nil
`error` is an `Option GoError`).  The two pointer types of `error.go` are
kept apart from every other implementation of `error`. -/
inductive GoError where
  /-- any implementation of `error` that is not declared in `error.go` -/
  | other (s : String)
  /-- `*FutureTaskError` with its field `Msg` -/
  | futureTaskError (msg : String)
  /-- `*FutureFuncError` with its field `Err` -/
  | futureFuncError (err : GoError)
  deriving DecidableEq, Repr

/-- Values of the Go type `interface{}`. -/
inductive Val where
  | nil
  | int (n : Int)
  | str (s : String)
  /-- a value whose dynamic type implements `error` -/
  | err (e : GoError)
  deriving DecidableEq, Repr

/-- Run-time faults of the Go program. -/
inductive Panic where
  /-- `send on closed channel` -/
  | sendOnClosedChannel
  /-- `makechan: size out of range` -/
  | makechanSizeOutOfRange
  /-- `close of closed channel` -/
  | closeOfClosedChannel
  /-- a user `panic(msg)` -/
  | user (msg : String)
  deriving DecidableEq, Repr

/-- The text `%v` prints for a recovered fault. -/
def Panic.text : Panic → String
  | .sendOnClosedChannel => "send on closed channel"
  | .makechanSizeOutOfRange => "makechan: size out of range"
  | .closeOfClosedChannel => "close of closed channel"
  | .user msg => msg

/-- `error.go`: `NewFutureTaskError`. -/
def NewFutureTaskError (msg : String) : GoError := .futureTaskError msg

/-- `error.go`: `NewFutureFuncError`. -/
def NewFutureFuncError (err : GoError) : GoError := .futureFuncError err

/-- `error.go`: the two `Error()` methods (other errors print their text). -/
def GoError.Error : GoError → String
  | .other s => s
  | .futureTaskError msg => msg
  | .futureFuncError err => err.Error

/-! ## Channels -/

/-- A Go channel: the buffered elements (head is received first), the
capacity given to `make`, whether `close` has been called, and the number of
goroutines parked in a blocking receive on it. -/
structure Chan (α : Type) where
  buf : List α
  cap : Nat
  closed : Bool
  recvq : Nat
  deriving DecidableEq, Repr

/-- The Go type `int` is 64 bits wide here: the value that arithmetic on
`int` yields when the mathematical result is `x` (two's complement). -/
def wrapInt (x : Int) : Int :=
  (x + 9223372036854775808) % 18446744073709551616 - 9223372036854775808

/-- Whether `x` is a value of the Go type `int`. -/
def isGoInt (x : Int) : Prop := -9223372036854775808 ≤ x ∧ x < 9223372036854775808

/-- The Go runtime constant `maxAlloc`, the largest allocation, on a 64-bit
platform with 48 address bits. -/
def maxAlloc : Nat := 281474976710656

/-- The Go runtime constant `hchanSize`, the size of a channel header. -/
def hchanSize : Nat := 96

/-- `make(chan T, size)` for an element type of `elemSize` bytes, as the
runtime function `makechan` decides it: a negative size, and a buffer of more
than `maxAlloc - hchanSize` bytes (which includes every overflow of the
multiplication), are the fault `makechan: size out of range`.  The allocation
itself is taken to succeed. -/
def makeChan (α : Type) (elemSize : Nat) (size : Int) : Except Panic (Chan α) :=
  if size < 0 ∨ maxAlloc - hchanSize < elemSize * size.toNat then
    .error .makechanSizeOutOfRange
  else .ok { buf := [], cap := size.toNat, closed := false, recvq := 0 }

/-- The size in bytes of a value of an interface type such as `Task` or
`interface{}`: two words. -/
def interfaceSize : Nat := 16

/-- `len(c)`. -/
def Chan.len {α : Type} (c : Chan α) : Nat := c.buf.length

/-- How a non-blocking send ended. -/
inductive Sent where
  /-- a parked receiver took the element directly; the buffer is untouched -/
  | handed
  /-- the element was appended to the buffer -/
  | buffered
  /-- neither a parked receiver nor room in the buffer: the `default` case -/
  | full
  deriving DecidableEq, Repr

/-- Whether the send case was taken. -/
def Sent.ok : Sent → Bool
  | .handed => true
  | .buffered => true
  | .full => false

/-- The statement `select { case c <- v: ... default: ... }`.  A send on a
closed channel is a fault; a parked receiver is served first; otherwise the
element is buffered when there is room. -/
def Chan.trySend {α : Type} (c : Chan α) (v : α) : Except Panic (Chan α × Sent) :=
  if c.closed then .error .sendOnClosedChannel
  else if 0 < c.recvq then .ok ({ c with recvq := c.recvq - 1 }, .handed)
  else if c.buf.length < c.cap then .ok ({ c with buf := c.buf ++ [v] }, .buffered)
  else .ok (c, .full)

/-- What a receive `v, ok := <-c` finds. -/
inductive Recv (α : Type) where
  /-- an element was buffered: `ok = true` -/
  | value (v : α) (rest : Chan α)
  /-- the channel is closed and drained: `ok = false` -/
  | closedEmpty
  /-- the channel is open and empty: the case is not ready -/
  | notReady
  deriving Repr

/-- The receive case of a `select` on `c`. -/
def Chan.recv {α : Type} (c : Chan α) : Recv α :=
  match c.buf with
  | v :: rest => .value v { c with buf := rest }
  | [] => if c.closed then .closedEmpty else .notReady

/-- A goroutine parks in a blocking receive on `c`. -/
def Chan.park {α : Type} (c : Chan α) : Chan α := { c with recvq := c.recvq + 1 }

/-- `close(c)`: every parked receiver is woken (with `ok = false`). -/
def Chan.close {α : Type} (c : Chan α) : Except Panic (Chan α) :=
  if c.closed then .error .closeOfClosedChannel
  else .ok { c with closed := true, recvq := 0 }

/-! ## future_task.go -/

/-- What one invocation of a `FutureFunc` does: it returns `(value, err)`
or it raises a fault. -/
inductive FOutcome where
  | ret (result : Val) (err : Option GoError)
  | fault (msg : String)
  deriving DecidableEq, Repr

/-- `type FutureFunc func() (interface{}, error)`. -/
abbrev FutureFunc := Unit → FOutcome

/-- `type FutureTask struct`.  The last three fields are not in the source:
they count the sends on `resultChan` that proceeded, the receives from it
that yielded an element, and the invocations of `f`. -/
structure FutureTask where
  f : FutureFunc
  resultChan : Chan Val
  aborted : Nat
  sends : Nat
  recvs : Nat
  fCalls : Nat

/-- `NewFutureTask`. -/
def NewFutureTask (f : FutureFunc) : FutureTask :=
  { f := f
    resultChan := { buf := [], cap := 1, closed := false, recvq := 0 }
    aborted := 0
    sends := 0, recvs := 0, fCalls := 0 }

/-- `FutureTask.IsAborted`. -/
def FutureTask.IsAborted (t : FutureTask) : Bool := t.aborted == 1

/-- `FutureTask.tReturn`: the non-blocking send of `result`. -/
def FutureTask.tReturn (t : FutureTask) (result : Val) : Except Panic (FutureTask × Bool) :=
  match t.resultChan.trySend result with
  | .error p => .error p
  | .ok (c, sent) =>
    if sent.ok then .ok ({ t with resultChan := c, sends := t.sends + 1 }, true)
    else .ok (t, false)

/-- `FutureTask.pickResult`: the two type assertions. -/
def pickResult (result : Val) : Val × Option GoError :=
  match result with
  | .err (.futureTaskError msg) => (.nil, some (.futureTaskError msg))
  | .err (.futureFuncError e) => (.nil, some (.futureFuncError e))
  | v => (v, none)

/-- `FutureTask.Abort`.  The load and the compare-and-swap of `aborted`
are one atomic step here. -/
def FutureTask.Abort (t : FutureTask) (msg : String) : Except Panic FutureTask :=
  if t.IsAborted then .ok t
  else if t.aborted != 0 then .ok t
  else
    match ({ t with aborted := 1 } : FutureTask).tReturn (.err (NewFutureTaskError msg)) with
    | .error p => .error p
    | .ok (t1, _) => .ok t1

/-- `FutureTask.Run`.  The deferred `recover` turns a fault of `f` or of
`tReturn` into `Abort("task.Run panic: ...")`. -/
def FutureTask.Run (t : FutureTask) : Except Panic FutureTask :=
  if t.IsAborted then .ok t
  else
    let t1 : FutureTask := { t with fCalls := t.fCalls + 1 }
    match t.f () with
    | .fault msg => t1.Abort ("task.Run panic: " ++ msg)
    | .ret result err =>
      let sent :=
        match err with
        | some e => t1.tReturn (.err (NewFutureFuncError e))
        | none => t1.tReturn result
      match sent with
      | .ok (t2, _) => .ok t2
      | .error p => t1.Abort ("task.Run panic: " ++ p.text)

/-- `FutureTask.PoolCloseCallBack`. -/
def FutureTask.PoolCloseCallBack (t : FutureTask) : Except Panic FutureTask :=
  t.Abort "pool closed"

/-- `FutureTask.GetResult`: the blocking receive.  `none`: the call blocks. -/
def FutureTask.GetResult (t : FutureTask) : Option (FutureTask × Val × Option GoError) :=
  match t.resultChan.recv with
  | .notReady => none
  | .closedEmpty => some (t, .nil, some (NewFutureTaskError "result chan closed"))
  | .value result c =>
    some ({ t with resultChan := c, recvs := t.recvs + 1 }, (pickResult result).1, (pickResult result).2)

/-- `*time.Timer`: its channel `C`, on which the runtime sends one tick when
the duration has elapsed. -/
structure Timer where
  C : Chan Unit
  deriving DecidableEq, Repr

/-- `FutureTask.GetResultWithTimeout`.  When both cases of the `select` are
ready Go picks one at random: `preferTimer` is that pick.  `none`: the call
blocks.  The returned triple is `(value, timeout, err)`. -/
def FutureTask.GetResultWithTimeout (t : FutureTask) (timer : Timer) (preferTimer : Bool) :
    Option (FutureTask × Timer × Val × Bool × Option GoError) :=
  let onTimer (c : Chan Unit) : Option (FutureTask × Timer × Val × Bool × Option GoError) :=
    some (t, { C := c }, .nil, true, some (NewFutureTaskError "time out here"))
  let onTimerClosed : Option (FutureTask × Timer × Val × Bool × Option GoError) :=
    some (t, timer, .nil, true, some (NewFutureTaskError "time out here"))
  let onResult (result : Val) (c : Chan Val) :
      Option (FutureTask × Timer × Val × Bool × Option GoError) :=
    some ({ t with resultChan := c, recvs := t.recvs + 1 }, timer,
      (pickResult result).1, false, (pickResult result).2)
  let onResultClosed : Option (FutureTask × Timer × Val × Bool × Option GoError) :=
    some (t, timer, .nil, false, some (NewFutureTaskError "result chan closed"))
  match timer.C.recv, t.resultChan.recv with
  | .notReady, .notReady => none
  | .notReady, .value result c => onResult result c
  | .notReady, .closedEmpty => onResultClosed
  | .value _ tc, .notReady => onTimer tc
  | .closedEmpty, .notReady => onTimerClosed
  | .value _ tc, .value result c => if preferTimer then onTimer tc else onResult result c
  | .value _ tc, .closedEmpty => if preferTimer then onTimer tc else onResultClosed
  | .closedEmpty, .value result c => if preferTimer then onTimerClosed else onResult result c
  | .closedEmpty, .closedEmpty => if preferTimer then onTimerClosed else onResultClosed

/-- `FutureTask.GetResultNoWait`. -/
def FutureTask.GetResultNoWait (t : FutureTask) : FutureTask × Val × Option GoError :=
  match t.resultChan.recv with
  | .notReady => (t, .nil, some (NewFutureTaskError "no result yet"))
  | .closedEmpty => (t, .nil, some (NewFutureTaskError "result chan closed"))
  | .value result c =>
    ({ t with resultChan := c, recvs := t.recvs + 1 }, (pickResult result).1, (pickResult result).2)

/-- The calls that can be made on a `FutureTask`. -/
inductive Call where
  | Run
  | Abort (msg : String)
  | PoolCloseCallBack
  | GetResult
  | GetResultWithTimeout (timer : Timer) (preferTimer : Bool)
  | GetResultNoWait
  deriving DecidableEq, Repr

/-- Whether the call receives from `resultChan`. -/
def Call.reads : Call → Bool
  | .GetResult => true
  | .GetResultWithTimeout _ _ => true
  | .GetResultNoWait => true
  | _ => false

/-- One call on the task.  `none`: the call does not return (it blocks, or
it ends in a fault). -/
def FutureTask.call (t : FutureTask) : Call → Option FutureTask
  | .Run => t.Run.toOption
  | .Abort msg => (t.Abort msg).toOption
  | .PoolCloseCallBack => t.PoolCloseCallBack.toOption
  | .GetResult => t.GetResult.map (fun r => r.1)
  | .GetResultWithTimeout timer preferTimer =>
    (t.GetResultWithTimeout timer preferTimer).map (fun r => r.1)
  | .GetResultNoWait => some t.GetResultNoWait.1

/-- A sequence of calls made one after the other.  The calls that follow a
call that does not return are never made. -/
def FutureTask.calls (t : FutureTask) : List Call → FutureTask
  | [] => t
  | c :: cs =>
    match t.call c with
    | none => t
    | some t1 => t1.calls cs

/-- The task states that a sequence of calls on a new task leads to. -/
def FutureTask.Reachable (t : FutureTask) : Prop :=
  ∃ (f : FutureFunc) (cs : List Call), (NewFutureTask f).calls cs = t

/-- `type Pool struct`, over the type `α` of the task handles it queues. -/
structure Pool (α : Type) where
  taskChan : Chan α
  workerSemaChan : Chan Unit
  maxGoroutineNum : Int
  closed : Nat
  deriving DecidableEq, Repr

/-- `NewPool`.  The elements of `taskChan` are values of the interface type
`Task`, those of `workerSemaChan` are of type `struct{}` and take no space;
`maxGoroutineNum-1` is computed on `int`.  The master goroutine that `NewPool`
starts is part of `Sys` below. -/
def NewPool (α : Type) (maxBuffer : Int) (maxGoroutineNum : Int) : Except Panic (Pool α) :=
  match makeChan α interfaceSize maxBuffer with
  | .error e => .error e
  | .ok taskChan =>
    match makeChan Unit 0 (wrapInt (maxGoroutineNum - 1)) with
    | .error e => .error e
    | .ok workerSemaChan =>
      .ok { taskChan := taskChan, workerSemaChan := workerSemaChan,
            maxGoroutineNum := maxGoroutineNum, closed := 0 }

/-- `Pool.IsClosed`. -/
def Pool.IsClosed {α : Type} (p : Pool α) : Bool := p.closed == 1

/-- `Pool.AddTask`: the non-blocking send on `taskChan`. -/
def Pool.AddTask {α : Type} (p : Pool α) (task : α) : Except Panic (Pool α × Bool) :=
  match p.taskChan.trySend task with
  | .error e => .error e
  | .ok (c, sent) => .ok ({ p with taskChan := c }, sent.ok)

set_option linter.unusedVariables false in
/-- The loop `LOOP` of `Pool.Close`: `removed` counts the tasks taken out
and `called` lists, in order, the tasks whose `PoolCloseCallBack` ran.  Both
the `!ok` case and the `default` case leave the loop. -/
def Pool.closeLoop {α : Type} (c : Chan α) (removed : Nat) (called : List α) :
    Chan α × Nat × List α :=
  match h : c.recv with
  | .value task rest => Pool.closeLoop rest (removed + 1) (called ++ [task])
  | .closedEmpty => (c, removed, called)
  | .notReady => (c, removed, called)
termination_by c.buf.length
decreasing_by
  unfold Chan.recv at h
  split at h
  · next v tl hb =>
    cases h
    simp [hb]
  · split at h <;> cases h

/-- What a call of `Pool.Close` did besides changing the pool: the tasks on
which it invoked `PoolCloseCallBack`, in order, and the count it logs
(`none` when it returned before the loop). -/
structure CloseReport (α : Type) where
  called : List α
  removed : Option Nat
  deriving DecidableEq, Repr

/-- `Pool.Close`.  The load and the compare-and-swap of `closed` are one
atomic step here. -/
def Pool.Close {α : Type} (p : Pool α) : Except Panic (Pool α × CloseReport α) :=
  if p.IsClosed then .ok (p, { called := [], removed := none })
  else if p.closed != 0 then .ok (p, { called := [], removed := none })
  else
    match p.taskChan.close with
    | .error e => .error e
    | .ok c =>
      let r := Pool.closeLoop c 0 []
      .ok ({ p with closed := 1, taskChan := r.1 }, { called := r.2.2, removed := some r.2.1 })

/-- `Pool.getWorkerSema`. -/
def Pool.getWorkerSema {α : Type} (p : Pool α) : Except Panic (Pool α × Bool) :=
  match p.workerSemaChan.trySend () with
  | .error e => .error e
  | .ok (c, sent) => .ok ({ p with workerSemaChan := c }, sent.ok)

/-- `Pool.returnWorkerSema`. -/
def Pool.returnWorkerSema {α : Type} (p : Pool α) : Pool α × Bool :=
  match p.workerSemaChan.recv with
  | .value _ c => ({ p with workerSemaChan := c }, true)
  | .closedEmpty => (p, true)
  | .notReady => (p, false)

/-- `Pool.dispatchWorker`; `true` means that `go p.worker(task)` ran. -/
def Pool.dispatchWorker {α : Type} (p : Pool α) : Except Panic (Pool α × Bool) :=
  match p.getWorkerSema with
  | .error e => .error e
  | .ok (p1, got) => if !got then .ok (p1, false) else .ok (p1, true)

/-- Where the master goroutine is. -/
inductive Master (α : Type) where
  /-- at the head of `LOOP` -/
  | looping
  /-- parked in the receive on `taskChan` -/
  | parked
  /-- it has received `task` and has not yet decided who runs it -/
  | holding (task : α)
  /-- it has left `LOOP` and its deferred `Close` has run -/
  | exited
  deriving DecidableEq, Repr

/-- Whether the master is parked in its receive. -/
def Master.isParked {α : Type} : Master α → Bool
  | .parked => true
  | _ => false

/-- Who ran a task. -/
inductive Ran (α : Type) where
  | onMaster (task : α)
  | onWorker (task : α)
  deriving DecidableEq, Repr

/-- The pool together with its goroutines: where the master is, how many
worker goroutines are alive, the tasks run so far and by whom (latest first),
and the tasks that received `PoolCloseCallBack` (in order). -/
structure Sys (α : Type) where
  p : Pool α
  master : Master α
  workers : Nat
  ran : List (Ran α)
  called : List α
  deriving DecidableEq, Repr

/-- The steps of the pool and of its users. -/
inductive Step (α : Type) where
  /-- a user calls `AddTask` -/
  | addTask (task : α)
  /-- a user calls `Close` -/
  | close
  /-- the master takes its next step -/
  | master
  /-- a live worker, having run its task, takes the next turn of its loop -/
  | worker
  deriving DecidableEq, Repr

/-- The state right after `NewPool` returned `p`. -/
def Sys.init {α : Type} (p : Pool α) : Sys α :=
  { p := p, master := .looping, workers := 0, ran := [], called := [] }

/-- `Close` called in state `s`; a master parked on `taskChan` is woken with
`ok = false`, leaves `LOOP`, and its deferred `Close` finds the pool closed. -/
def Sys.close {α : Type} (s : Sys α) : Sys α :=
  match s.p.Close with
  | .error _ => s
  | .ok (p1, report) =>
    { s with
      p := p1
      called := s.called ++ report.called
      master := if s.master.isParked && report.removed.isSome then .exited else s.master }

/-- One step of `Pool.master`.

* At the head of `LOOP`: a closed pool ends the loop; otherwise the receive
  yields a task, or `ok = false` (the loop ends), or parks the master.
* Holding a task: `len(p.taskChan) == 0` runs it on the master; otherwise
  `dispatchWorker` starts a worker with it, or, without a permit, the master
  runs it.

Leaving `LOOP` runs the deferred `Close`. -/
def Sys.masterStep {α : Type} (s : Sys α) : Sys α :=
  match s.master with
  | .exited => s
  | .parked => s
  | .looping =>
    if s.p.IsClosed then ({ s with master := .exited } : Sys α).close
    else
      match s.p.taskChan.recv with
      | .value task c => { s with p := { s.p with taskChan := c }, master := .holding task }
      | .closedEmpty => ({ s with master := .exited } : Sys α).close
      | .notReady => { s with p := { s.p with taskChan := s.p.taskChan.park }, master := .parked }
  | .holding task =>
    if s.p.taskChan.len == 0 then
      { s with master := .looping, ran := .onMaster task :: s.ran }
    else
      match s.p.dispatchWorker with
      | .error _ => ({ s with master := .exited } : Sys α).close
      | .ok (p1, ret) =>
        if !ret then { s with p := p1, master := .looping, ran := .onMaster task :: s.ran }
        else { s with p := p1, master := .looping, workers := s.workers + 1,
                      ran := .onWorker task :: s.ran }

/-- One turn of the loop of `Pool.worker` in a live worker: a closed pool,
`ok = false` and the `default` case end the worker, whose deferred
`returnWorkerSema` then runs; a received task is run. -/
def Sys.workerStep {α : Type} (s : Sys α) : Sys α :=
  if s.workers = 0 then s
  else
    let leave : Sys α := { s with p := s.p.returnWorkerSema.1, workers := s.workers - 1 }
    if s.p.IsClosed then leave
    else
      match s.p.taskChan.recv with
      | .value task c => { s with p := { s.p with taskChan := c }, ran := .onWorker task :: s.ran }
      | .closedEmpty => leave
      | .notReady => leave

/-- `AddTask` called in state `s`, with what it returned (`none`: a
fault).  A task handed to the parked master is then held by the master. -/
def Sys.addTask {α : Type} (s : Sys α) (task : α) : Sys α × Option Bool :=
  match s.p.AddTask task with
  | .error _ => (s, none)
  | .ok (p1, ok) =>
    if s.master.isParked && decide (0 < s.p.taskChan.recvq) then
      ({ s with p := p1, master := .holding task }, some ok)
    else ({ s with p := p1 }, some ok)

/-- One step of the system. -/
def Sys.step {α : Type} (s : Sys α) : Step α → Sys α
  | .addTask task => (s.addTask task).1
  | .close => s.close
  | .master => s.masterStep
  | .worker => s.workerStep

/-- A sequence of steps. -/
def Sys.steps {α : Type} (s : Sys α) : List (Step α) → Sys α
  | [] => s
  | a :: as => (s.step a).steps as

/-! ## async_executor.go -/

/-- `type AsyncExecutor struct`. -/
structure AsyncExecutor (α : Type) where
  p : Pool α

/-- `NewAsyncExecutor`. -/
def NewAsyncExecutor {α : Type} (p : Pool α) : AsyncExecutor α := { p := p }

/-- `AsyncExecutor.AddTask`. -/
def AsyncExecutor.AddTask {α : Type} (e : AsyncExecutor α) (task : α) :
    Except Panic (AsyncExecutor α × Bool) :=
  match e.p.AddTask task with
  | .error x => .error x
  | .ok (p1, ok) => .ok ({ p := p1 }, ok)

/-! ## future_executor.go -/

/-- `type FutureExecutor struct`.  The slice `tasks` holds the states of the
tasks; the handle of a task that the pool queues is its position in `tasks`. -/
structure FutureExecutor where
  p : Pool Nat
  tasks : List FutureTask

/-- `NewFutureExecutor`. -/
def NewFutureExecutor (p : Pool Nat) : FutureExecutor := { p := p, tasks := [] }

/-- `FutureExecutor.AddTask`: the executor after the call, and the fault the
call ended in, if any.  The new task is appended to `tasks` before the send to
the pool, so it stays there when the send faults. -/
def FutureExecutor.AddTask (e : FutureExecutor) (f : FutureFunc) :
    FutureExecutor × Option Panic :=
  let task := NewFutureTask f
  let tasks := e.tasks ++ [task]
  match e.p.AddTask e.tasks.length with
  | .error x => ({ p := e.p, tasks := tasks }, some x)
  | .ok (p1, ok) =>
    if !ok then
      match task.Abort "pool is full" with
      | .error x => ({ p := p1, tasks := tasks }, some x)
      | .ok task1 => ({ p := p1, tasks := e.tasks ++ [task1] }, none)
    else ({ p := p1, tasks := tasks }, none)

/-- What happens to an executor between `NewFutureExecutor` and `Wait`. -/
inductive Event where
  /-- the owner calls `AddTask(f)` (and goes on if the call faults) -/
  | addTask (f : FutureFunc)
  /-- a goroutine of the pool, `Close`, or the owner makes the call `c` on the
  task at position `i` -/
  | call (i : Nat) (c : Call)
  /-- the goroutines of the pool and its other users leave the shared pool in
  state `p` -/
  | pool (p : Pool Nat)

/-- Whether the event reads the result of a task. -/
def Event.reads : Event → Bool
  | .call _ c => c.reads
  | _ => false

/-- What holds of `resultChan` and of `aborted` in every state of a task
that calls on a new task lead to: capacity 1, never closed, no parked
receiver, at most one buffered element, `aborted` 0 or 1, and every send that
proceeded is either received or still buffered. -/
def FutureTask.Inv (t : FutureTask) : Prop :=
  t.resultChan.cap = 1 ∧ t.resultChan.closed = false ∧ t.resultChan.recvq = 0 ∧
  t.resultChan.buf.length ≤ 1 ∧ (t.aborted = 0 ∨ t.aborted = 1) ∧
  t.sends = t.recvs + t.resultChan.buf.length

/-- What holds in addition of a task whose result has not been read: nothing
was received, and an aborted task has its result buffered. -/
def FutureTask.UInv (t : FutureTask) : Prop :=
  t.Inv ∧ t.recvs = 0 ∧ (t.aborted = 1 → t.resultChan.buf ≠ [])

/-- Whether the dynamic type of the value is `*FutureTaskError` or
`*FutureFuncError`, the two types that `pickResult` asserts. -/
def Val.isFutureError : Val → Bool
  | .err (.futureTaskError _) => true
  | .err (.futureFuncError _) => true
  | _ => false

/-! ## Concrete inputs -/

/-- A function that returns `(7, nil)`. -/
def returnsSeven : FutureFunc := fun _ => .ret (.int 7) none

/-- A function that returns a `*FutureTaskError` as its value, with a nil error. -/
def returnsErrorValue : FutureFunc := fun _ => .ret (.err (.futureTaskError "boom")) none

/-- What holds in every state of the pool system reached from
`NewPool(maxBuffer, maxGoroutineNum)`: the capacities are the ones given to
`make`; neither buffer exceeds its capacity; `workerSemaChan` is never closed
and nobody parks on it; the live workers are the permits held; `closed` is 0
or 1 and `taskChan` is closed exactly when it is 1, and is then drained; the
only receiver that parks on `taskChan` is the master, and only when the
buffer is empty and the pool open. -/
def Sys.Inv {α : Type} (s : Sys α) (maxBuffer maxGoroutineNum : Int) : Prop :=
  s.p.taskChan.cap = maxBuffer.toNat ∧
  s.p.workerSemaChan.cap = (wrapInt (maxGoroutineNum - 1)).toNat ∧
  s.p.maxGoroutineNum = maxGoroutineNum ∧
  s.p.taskChan.buf.length ≤ s.p.taskChan.cap ∧
  s.p.workerSemaChan.closed = false ∧
  s.p.workerSemaChan.recvq = 0 ∧
  s.p.workerSemaChan.buf.length ≤ s.p.workerSemaChan.cap ∧
  s.workers = s.p.workerSemaChan.buf.length ∧
  (s.p.closed = 0 ∨ s.p.closed = 1) ∧
  s.p.taskChan.closed = (s.p.closed == 1) ∧
  (s.p.closed = 1 → s.p.taskChan.buf = []) ∧
  s.p.taskChan.recvq = (if s.master.isParked then 1 else 0) ∧
  (s.master.isParked = true → s.p.taskChan.buf = [] ∧ s.p.closed = 0)

/-- Whether the task was run by the master. -/
def Ran.isOnMaster {α : Type} : Ran α → Bool
  | .onMaster _ => true
  | .onWorker _ => false

/-- The pool of scenario C, `NewPool(10, 1)`, as `NewPool` returns it. -/
def poolTenOne : Pool Nat :=
  { taskChan := { buf := [], cap := 10, closed := false, recvq := 0 }
    workerSemaChan := { buf := [], cap := 0, closed := false, recvq := 0 }
    maxGoroutineNum := 1
    closed := 0 }

/-- The pool `NewPool(10, 2)` of scenarios A and B, as `NewPool` returns it. -/
def poolTenTwo : Pool Nat :=
  { taskChan := { buf := [], cap := 10, closed := false, recvq := 0 }
    workerSemaChan := { buf := [], cap := 1, closed := false, recvq := 0 }
    maxGoroutineNum := 2
    closed := 0 }

/-- The pool `NewPool(0, 1)`, as `NewPool` returns it. -/
def poolZeroOne : Pool Nat :=
  { taskChan := { buf := [], cap := 0, closed := false, recvq := 0 }
    workerSemaChan := { buf := [], cap := 0, closed := false, recvq := 0 }
    maxGoroutineNum := 1
    closed := 0 }

/-- Ten calls of `AddTask`, with the handles 0 to 9. -/
def tenAddTasks : List (Step Nat) :=
  [.addTask 0, .addTask 1, .addTask 2, .addTask 3, .addTask 4,
   .addTask 5, .addTask 6, .addTask 7, .addTask 8, .addTask 9]

theorem inv_new (f : FutureFunc) : (NewFutureTask f).Inv := by
  simp [FutureTask.Inv, NewFutureTask]

theorem tReturn_empty (t : FutureTask) (h : t.Inv) (hb : t.resultChan.buf = []) (v : Val) :
    t.tReturn v = .ok ({ t with resultChan := { t.resultChan with buf := [v] },
                                sends := t.sends + 1 }, true) := by
  obtain ⟨hcap, hcl, hq, -, -, -⟩ := h
  simp [FutureTask.tReturn, Chan.trySend, hcap, hcl, hq, hb, Sent.ok]

theorem tReturn_full (t : FutureTask) (h : t.Inv) (hb : t.resultChan.buf ≠ []) (v : Val) :
    t.tReturn v = .ok (t, false) := by
  obtain ⟨hcap, hcl, hq, hlen, -, -⟩ := h
  have : ¬ t.resultChan.buf.length < 1 := by
    cases hbuf : t.resultChan.buf with
    | nil => exact absurd hbuf hb
    | cons a l => simp
  simp [FutureTask.tReturn, Chan.trySend, hcap, hcl, hq, this, Sent.ok]

theorem inv_tReturn (t t1 : FutureTask) (v : Val) (b : Bool) (h : t.Inv)
    (hr : t.tReturn v = .ok (t1, b)) : t1.Inv := by
  by_cases hb : t.resultChan.buf = []
  · rw [tReturn_empty t h hb] at hr
    cases hr
    obtain ⟨hcap, hcl, hq, hlen, hab, hs⟩ := h
    simp [FutureTask.Inv, hcap, hcl, hq, hab, hs, hb]
  · rw [tReturn_full t h hb] at hr
    cases hr
    exact h

theorem inv_setAborted (t : FutureTask) (h : t.Inv) : ({ t with aborted := 1 } : FutureTask).Inv := by
  obtain ⟨hcap, hcl, hq, hlen, hab, hs⟩ := h
  exact ⟨hcap, hcl, hq, hlen, Or.inr rfl, hs⟩

theorem Abort_aborted (t : FutureTask) (msg : String) (h : t.IsAborted = true) :
    t.Abort msg = .ok t := by
  simp [FutureTask.Abort, h]

theorem Abort_empty (t : FutureTask) (msg : String) (h : t.Inv) (ha : t.aborted = 0)
    (hb : t.resultChan.buf = []) :
    t.Abort msg = .ok { t with aborted := 1,
                               resultChan := { t.resultChan with buf := [.err (.futureTaskError msg)] },
                               sends := t.sends + 1 } := by
  have h1 := tReturn_empty _ (inv_setAborted t h) hb (.err (NewFutureTaskError msg))
  simp only [FutureTask.Abort, FutureTask.IsAborted, ha]
  simp only [h1]
  simp [NewFutureTaskError]

theorem Abort_full (t : FutureTask) (msg : String) (h : t.Inv) (ha : t.aborted = 0)
    (hb : t.resultChan.buf ≠ []) :
    t.Abort msg = .ok { t with aborted := 1 } := by
  have h1 := tReturn_full _ (inv_setAborted t h) hb (.err (NewFutureTaskError msg))
  simp only [FutureTask.Abort, FutureTask.IsAborted, ha]
  simp only [h1]
  simp

theorem Abort_inv (t : FutureTask) (msg : String) (h : t.Inv) :
    ∃ t1, t.Abort msg = .ok t1 ∧ t1.Inv ∧ t1.IsAborted = true ∧ t1.fCalls = t.fCalls ∧
      t1.f = t.f ∧ t1.recvs = t.recvs ∧
      (t.resultChan.buf ≠ [] → t1.resultChan = t.resultChan ∧ t1.sends = t.sends) := by
  have hab := h.2.2.2.2.1
  rcases hab with ha | ha
  · by_cases hb : t.resultChan.buf = []
    · refine ⟨_, Abort_empty t msg h ha hb, ?_, rfl, rfl, rfl, rfl, fun hne => absurd hb hne⟩
      obtain ⟨hcap, hcl, hq, hlen, -, hs⟩ := h
      simp [FutureTask.Inv, hcap, hcl, hq, hs, hb]
    · exact ⟨_, Abort_full t msg h ha hb, inv_setAborted t h, rfl, rfl, rfl, rfl, fun _ => ⟨rfl, rfl⟩⟩
  · have hi : t.IsAborted = true := by simp [FutureTask.IsAborted, ha]
    exact ⟨t, Abort_aborted t msg hi, h, hi, rfl, rfl, rfl, fun _ => ⟨rfl, rfl⟩⟩

theorem Run_aborted (t : FutureTask) (h : t.IsAborted = true) : t.Run = .ok t := by
  simp [FutureTask.Run, h]

theorem Run_inv (t : FutureTask) (h : t.Inv) :
    ∃ t1, t.Run = .ok t1 ∧ t1.Inv ∧ t1.recvs = t.recvs ∧ t1.f = t.f ∧
      (t.resultChan.buf ≠ [] → t1.resultChan = t.resultChan ∧ t1.sends = t.sends) := by
  by_cases hi : t.IsAborted = true
  · exact ⟨t, Run_aborted t hi, h, rfl, rfl, fun _ => ⟨rfl, rfl⟩⟩
  · have h1 : ({ t with fCalls := t.fCalls + 1 } : FutureTask).Inv := h
    simp only [FutureTask.Run, hi]
    cases hf : t.f () with
    | fault msg =>
      obtain ⟨t1, e1, i1, -, -, f1, r1, k1⟩ := Abort_inv _ ("task.Run panic: " ++ msg) h1
      exact ⟨t1, by simpa using e1, i1, r1, f1, k1⟩
    | ret result err =>
      by_cases hb : t.resultChan.buf = []
      · cases err with
        | none =>
          have e := tReturn_empty _ h1 hb result
          refine ⟨_, by simp [e], inv_tReturn _ _ _ _ h1 e, rfl, rfl, fun hne => absurd hb hne⟩
        | some x =>
          have e := tReturn_empty _ h1 hb (.err (NewFutureFuncError x))
          refine ⟨_, by simp [e], inv_tReturn _ _ _ _ h1 e, rfl, rfl, fun hne => absurd hb hne⟩
      · cases err with
        | none =>
          have e := tReturn_full _ h1 hb result
          exact ⟨_, by simp [e], h1, rfl, rfl, fun _ => ⟨rfl, rfl⟩⟩
        | some x =>
          have e := tReturn_full _ h1 hb (.err (NewFutureFuncError x))
          exact ⟨_, by simp [e], h1, rfl, rfl, fun _ => ⟨rfl, rfl⟩⟩

theorem recv_inv (t : FutureTask) (h : t.Inv) :
    (t.resultChan.buf = [] ∧ t.resultChan.recv = .notReady) ∨
    (∃ v, t.resultChan.buf = [v] ∧
      t.resultChan.recv = .value v { t.resultChan with buf := [] }) := by
  obtain ⟨-, hcl, -, hlen, -, -⟩ := h
  cases hb : t.resultChan.buf with
  | nil => left; simp [Chan.recv, hb, hcl]
  | cons v l =>
    have hl : l = [] := by
      rw [hb] at hlen
      simpa using hlen
    subst hl
    right
    exact ⟨v, rfl, by simp [Chan.recv, hb]⟩

theorem inv_take (t : FutureTask) (h : t.Inv) (v : Val) (hb : t.resultChan.buf = [v]) :
    ({ t with resultChan := { t.resultChan with buf := [] }, recvs := t.recvs + 1 } :
      FutureTask).Inv := by
  obtain ⟨hcap, hcl, hq, hlen, hab, hs⟩ := h
  refine ⟨hcap, hcl, hq, by simp, hab, ?_⟩
  simp [hs, hb]

theorem GetResult_empty (t : FutureTask) (h : t.Inv) (hb : t.resultChan.buf = []) :
    t.GetResult = none := by
  rcases recv_inv t h with ⟨-, hr⟩ | ⟨v, hv, -⟩
  · simp [FutureTask.GetResult, hr]
  · rw [hb] at hv; cases hv

theorem GetResult_full (t : FutureTask) (h : t.Inv) (v : Val) (hb : t.resultChan.buf = [v]) :
    t.GetResult =
      some ({ t with resultChan := { t.resultChan with buf := [] }, recvs := t.recvs + 1 },
        (pickResult v).1, (pickResult v).2) := by
  rcases recv_inv t h with ⟨he, -⟩ | ⟨w, hw, hr⟩
  · rw [hb] at he; cases he
  · rw [hb] at hw
    cases hw
    simp [FutureTask.GetResult, hr]

theorem GetResultNoWait_empty (t : FutureTask) (h : t.Inv) (hb : t.resultChan.buf = []) :
    t.GetResultNoWait = (t, .nil, some (.futureTaskError "no result yet")) := by
  rcases recv_inv t h with ⟨-, hr⟩ | ⟨v, hv, -⟩
  · simp [FutureTask.GetResultNoWait, hr, NewFutureTaskError]
  · rw [hb] at hv; cases hv

theorem GetResultNoWait_full (t : FutureTask) (h : t.Inv) (v : Val)
    (hb : t.resultChan.buf = [v]) :
    t.GetResultNoWait =
      ({ t with resultChan := { t.resultChan with buf := [] }, recvs := t.recvs + 1 },
        (pickResult v).1, (pickResult v).2) := by
  rcases recv_inv t h with ⟨he, -⟩ | ⟨w, hw, hr⟩
  · rw [hb] at he; cases he
  · rw [hb] at hw
    cases hw
    simp [FutureTask.GetResultNoWait, hr]

theorem GetResultWithTimeout_cases (t : FutureTask) (h : t.Inv) (timer : Timer) (b : Bool)
    (r : FutureTask × Timer × Val × Bool × Option GoError)
    (hr : t.GetResultWithTimeout timer b = some r) :
    (r.1 = t ∧ r.2.2.1 = .nil ∧ r.2.2.2.1 = true ∧
        r.2.2.2.2 = some (.futureTaskError "time out here") ∧ timer.C.recv ≠ .notReady) ∨
    (∃ v, t.resultChan.buf = [v] ∧
      r.1 = { t with resultChan := { t.resultChan with buf := [] }, recvs := t.recvs + 1 } ∧
      r.2.1 = timer ∧ r.2.2.1 = (pickResult v).1 ∧ r.2.2.2.1 = false ∧
      r.2.2.2.2 = (pickResult v).2) := by
  rcases recv_inv t h with ⟨he, hn⟩ | ⟨w, hw, hv⟩
  · left
    simp only [FutureTask.GetResultWithTimeout, hn] at hr
    cases htc : timer.C.recv with
    | notReady => simp [htc] at hr
    | value u tc =>
      simp only [htc] at hr
      cases hr
      simp [NewFutureTaskError]
    | closedEmpty =>
      simp only [htc] at hr
      cases hr
      simp [NewFutureTaskError]
  · simp only [FutureTask.GetResultWithTimeout, hv] at hr
    cases htc : timer.C.recv with
    | notReady =>
      simp only [htc] at hr
      cases hr
      exact Or.inr ⟨w, hw, rfl, rfl, rfl, rfl, rfl⟩
    | value u tc =>
      simp only [htc] at hr
      cases b with
      | true =>
        simp at hr
        subst hr
        left
        simp [NewFutureTaskError]
      | false =>
        simp at hr
        subst hr
        exact Or.inr ⟨w, hw, rfl, rfl, rfl, rfl, rfl⟩
    | closedEmpty =>
      simp only [htc] at hr
      cases b with
      | true =>
        simp at hr
        subst hr
        left
        simp [NewFutureTaskError]
      | false =>
        simp at hr
        subst hr
        exact Or.inr ⟨w, hw, rfl, rfl, rfl, rfl, rfl⟩

theorem inv_call (t t1 : FutureTask) (c : Call) (h : t.Inv) (hc : t.call c = some t1) :
    t1.Inv := by
  cases c with
  | Run =>
    obtain ⟨t2, e, i, -⟩ := Run_inv t h
    simp [FutureTask.call, e, Except.toOption] at hc
    subst hc; exact i
  | Abort msg =>
    obtain ⟨t2, e, i, -⟩ := Abort_inv t msg h
    simp [FutureTask.call, e, Except.toOption] at hc
    subst hc; exact i
  | PoolCloseCallBack =>
    obtain ⟨t2, e, i, -⟩ := Abort_inv t "pool closed" h
    simp [FutureTask.call, FutureTask.PoolCloseCallBack, e, Except.toOption] at hc
    subst hc; exact i
  | GetResult =>
    rcases recv_inv t h with ⟨he, -⟩ | ⟨w, hw, -⟩
    · simp [FutureTask.call, GetResult_empty t h he] at hc
    · simp [FutureTask.call, GetResult_full t h w hw] at hc
      subst hc; exact inv_take t h w hw
  | GetResultWithTimeout timer b =>
    simp only [FutureTask.call, Option.map_eq_some'] at hc
    obtain ⟨r, hr, rfl⟩ := hc
    rcases GetResultWithTimeout_cases t h timer b r hr with ⟨e, -⟩ | ⟨v, hv, e, -⟩
    · rw [e]; exact h
    · rw [e]; exact inv_take t h v hv
  | GetResultNoWait =>
    simp only [FutureTask.call, Option.some.injEq] at hc
    subst hc
    rcases recv_inv t h with ⟨he, -⟩ | ⟨w, hw, -⟩
    · rw [GetResultNoWait_empty t h he]; exact h
    · rw [GetResultNoWait_full t h w hw]; exact inv_take t h w hw

theorem inv_calls (cs : List Call) : ∀ (t : FutureTask), t.Inv → (t.calls cs).Inv := by
  induction cs with
  | nil => intro t h; exact h
  | cons c cs ih =>
    intro t h
    simp only [FutureTask.calls]
    cases hc : t.call c with
    | none => exact h
    | some t1 => exact ih t1 (inv_call t t1 c h hc)

theorem inv_reachable (t : FutureTask) (h : t.Reachable) : t.Inv := by
  obtain ⟨f, cs, rfl⟩ := h
  exact inv_calls cs _ (inv_new f)

theorem Abort_filled (t : FutureTask) (msg : String) (h : t.UInv) :
    ∃ t1, t.Abort msg = .ok t1 ∧ t1.resultChan.buf ≠ [] := by
  obtain ⟨hi, -, hp⟩ := h
  rcases hi.2.2.2.2.1 with ha | ha
  · by_cases hb : t.resultChan.buf = []
    · exact ⟨_, Abort_empty t msg hi ha hb, by simp⟩
    · exact ⟨_, Abort_full t msg hi ha hb, hb⟩
  · exact ⟨t, Abort_aborted t msg (by simp [FutureTask.IsAborted, ha]), hp ha⟩

theorem Run_filled (t : FutureTask) (h : t.UInv) :
    ∃ t1, t.Run = .ok t1 ∧ t1.resultChan.buf ≠ [] := by
  obtain ⟨hi, hr, hp⟩ := h
  by_cases hab : t.IsAborted = true
  · refine ⟨t, Run_aborted t hab, hp ?_⟩
    simpa [FutureTask.IsAborted] using hab
  · have h1 : ({ t with fCalls := t.fCalls + 1 } : FutureTask).UInv := ⟨hi, hr, hp⟩
    simp only [FutureTask.Run, hab]
    cases hf : t.f () with
    | fault msg =>
      obtain ⟨t1, e1, k1⟩ := Abort_filled _ ("task.Run panic: " ++ msg) h1
      exact ⟨t1, by simpa using e1, k1⟩
    | ret result err =>
      by_cases hb : t.resultChan.buf = []
      · cases err with
        | none =>
          have e := tReturn_empty _ h1.1 hb result
          apply Exists.intro
          refine ⟨?_, ?_⟩
          · simp only [e]; rfl
          · simp
        | some x =>
          have e := tReturn_empty _ h1.1 hb (.err (NewFutureFuncError x))
          apply Exists.intro
          refine ⟨?_, ?_⟩
          · simp only [e]; rfl
          · simp
      · cases err with
        | none =>
          have e := tReturn_full _ h1.1 hb result
          apply Exists.intro
          refine ⟨?_, ?_⟩
          · simp only [e]; rfl
          · exact hb
        | some x =>
          have e := tReturn_full _ h1.1 hb (.err (NewFutureFuncError x))
          apply Exists.intro
          refine ⟨?_, ?_⟩
          · simp only [e]; rfl
          · exact hb

theorem uinv_call (t t1 : FutureTask) (c : Call) (h : t.UInv) (hc : t.call c = some t1)
    (hr : c.reads = false) : t1.UInv := by
  have hi := inv_call t t1 c h.1 hc
  cases c with
  | Run =>
    obtain ⟨t2, e, -, r, -⟩ := Run_inv t h.1
    obtain ⟨t3, e3, k⟩ := Run_filled t h
    rw [e] at e3
    cases e3
    simp [FutureTask.call, e, Except.toOption] at hc
    subst hc
    exact ⟨hi, by rw [r]; exact h.2.1, fun _ => k⟩
  | Abort msg =>
    obtain ⟨t2, e, -, -, -, -, r, -⟩ := Abort_inv t msg h.1
    obtain ⟨t3, e3, k⟩ := Abort_filled t msg h
    rw [e] at e3
    cases e3
    simp [FutureTask.call, e, Except.toOption] at hc
    subst hc
    exact ⟨hi, by rw [r]; exact h.2.1, fun _ => k⟩
  | PoolCloseCallBack =>
    obtain ⟨t2, e, -, -, -, -, r, -⟩ := Abort_inv t "pool closed" h.1
    obtain ⟨t3, e3, k⟩ := Abort_filled t "pool closed" h
    rw [e] at e3
    cases e3
    simp [FutureTask.call, FutureTask.PoolCloseCallBack, e, Except.toOption] at hc
    subst hc
    exact ⟨hi, by rw [r]; exact h.2.1, fun _ => k⟩
  | GetResult => simp [Call.reads] at hr
  | GetResultWithTimeout timer b => simp [Call.reads] at hr
  | GetResultNoWait => simp [Call.reads] at hr

theorem uinv_calls (cs : List Call) :
    ∀ (t : FutureTask), t.UInv → (∀ c ∈ cs, c.reads = false) → (t.calls cs).UInv := by
  induction cs with
  | nil => intro t h _; exact h
  | cons c cs ih =>
    intro t h hr
    simp only [FutureTask.calls]
    cases hc : t.call c with
    | none => exact h
    | some t1 =>
      exact ih t1 (uinv_call t t1 c h hc (hr c (List.mem_cons_self _ _)))
        (fun d hd => hr d (List.mem_cons_of_mem _ hd))

theorem uinv_new (f : FutureFunc) : (NewFutureTask f).UInv :=
  ⟨inv_new f, rfl, by simp [NewFutureTask]⟩

/-- C1 (the code at the failing input).  On a new task whose function
returns `(7, nil)`, the `tReturn` of `Run` succeeds, `GetResult` takes the
result out, and the `tReturn` of a later `Abort("late")` succeeds as well: the
cell receives a second write, and a `GetResultNoWait` then finds
`FutureTaskError{late}` on the task that had completed. -/
theorem C1_write_after_read :
    ((NewFutureTask returnsSeven).calls [.Run]).sends = 1 ∧
    ((NewFutureTask returnsSeven).calls [.Run]).GetResult.map (fun r => r.2) =
      some (.int 7, none) ∧
    ((NewFutureTask returnsSeven).calls [.Run, .GetResult]).sends = 1 ∧
    ((NewFutureTask returnsSeven).calls [.Run, .GetResult, .Abort "late"]).sends = 2 ∧
    ((NewFutureTask returnsSeven).calls [.Run, .GetResult, .Abort "late"]).resultChan.buf =
      [.err (.futureTaskError "late")] ∧
    ((NewFutureTask returnsSeven).calls [.Run, .GetResult, .Abort "late"]).GetResultNoWait.2 =
      (.nil, some (.futureTaskError "late")) := by
  refine ⟨rfl, rfl, rfl, rfl, rfl, rfl⟩

/-- What the capacity-1 channel does guarantee, for every new task and every
sequence of calls: the sends that proceeded are the receives that yielded a
result plus the results still buffered, at most one result is buffered, and
while a result is buffered every `tReturn` returns `false` and changes
nothing. -/
theorem sends_eq_recvs_add_buffered (f : FutureFunc) (cs : List Call) :
    ((NewFutureTask f).calls cs).sends =
        ((NewFutureTask f).calls cs).recvs + ((NewFutureTask f).calls cs).resultChan.buf.length ∧
    ((NewFutureTask f).calls cs).resultChan.buf.length ≤ 1 ∧
    ((∀ c ∈ cs, c.reads = false) → ((NewFutureTask f).calls cs).sends ≤ 1) ∧
    (∀ v : Val, ((NewFutureTask f).calls cs).resultChan.buf ≠ [] →
      ((NewFutureTask f).calls cs).tReturn v = .ok ((NewFutureTask f).calls cs, false)) := by
  have hi := inv_calls cs _ (inv_new f)
  obtain ⟨-, -, -, hlen, -, hs⟩ := id hi
  refine ⟨hs, hlen, ?_, fun v hb => tReturn_full _ hi hb v⟩
  intro hr
  have hu := uinv_calls cs _ (uinv_new f) hr
  have := hu.2.1
  omega

theorem Run_new_value (f : FutureFunc) (v : Val) (hf : f () = .ret v none) :
    (NewFutureTask f).Run =
      .ok { f := f, resultChan := { buf := [v], cap := 1, closed := false, recvq := 0 },
            aborted := 0, sends := 1, recvs := 0, fCalls := 1 } := by
  simp [FutureTask.Run, FutureTask.IsAborted, NewFutureTask, hf, FutureTask.tReturn,
    Chan.trySend, Sent.ok]

theorem Run_new_failure (f : FutureFunc) (v : Val) (e : GoError) (hf : f () = .ret v (some e)) :
    (NewFutureTask f).Run =
      .ok { f := f
            resultChan := { buf := [.err (.futureFuncError e)], cap := 1, closed := false,
                            recvq := 0 }
            aborted := 0, sends := 1, recvs := 0, fCalls := 1 } := by
  simp [FutureTask.Run, FutureTask.IsAborted, NewFutureTask, hf, FutureTask.tReturn,
    Chan.trySend, Sent.ok, NewFutureFuncError]

theorem Run_new_fault (f : FutureFunc) (msg : String) (hf : f () = .fault msg) :
    (NewFutureTask f).Run =
      .ok { f := f
            resultChan := { buf := [.err (.futureTaskError ("task.Run panic: " ++ msg))],
                            cap := 1, closed := false, recvq := 0 }
            aborted := 1, sends := 1, recvs := 0, fCalls := 1 } := by
  simp [FutureTask.Run, FutureTask.IsAborted, NewFutureTask, hf, FutureTask.tReturn,
    Chan.trySend, Sent.ok, FutureTask.Abort, NewFutureTaskError]

theorem pickResult_plain (v : Val) (hv : v.isFutureError = false) : pickResult v = (v, none) := by
  cases v with
  | err e => cases e <;> simp_all [Val.isFutureError, pickResult]
  | _ => rfl

/-- C8 (the code at the failing input).  A function that returns a
`*FutureTaskError` as its value, with a nil error: `Run` invokes it once and
makes one write, and `GetResult` then returns `(nil, that error)`, not
`(v, nil)`. -/
theorem C8_error_typed_value_returned_as_error :
    returnsErrorValue () = .ret (.err (.futureTaskError "boom")) none ∧
    ((NewFutureTask returnsErrorValue).calls [.Run]).fCalls = 1 ∧
    ((NewFutureTask returnsErrorValue).calls [.Run]).sends = 1 ∧
    ((NewFutureTask returnsErrorValue).calls [.Run]).IsAborted = false ∧
    (((NewFutureTask returnsErrorValue).calls [.Run]).GetResult.map (fun r => r.2)) =
      some (.nil, some (.futureTaskError "boom")) := by
  refine ⟨rfl, rfl, rfl, rfl, rfl⟩

/-- The other cases of `Run`, for every `FutureFunc` `f`: `Run` on an aborted
task returns without invoking `f` and leaves the task as it is; on a new task
`Run` invokes `f` once and makes exactly one write, after which `GetResult`
returns `pickResult v` when `f` returned `(v, nil)`, which is `(v, nil)` for
every `v` whose type is neither `*FutureTaskError` nor `*FutureFuncError`; it
returns `(nil, FutureFuncError err)` when `f` returned a non-nil `err`; and it
returns `(nil, FutureTaskError "task.Run panic: ...")` when `f` raised a
fault. -/
theorem Run_outcomes (f : FutureFunc) :
    (∀ t : FutureTask, t.IsAborted = true → t.Run = .ok t) ∧
    (∀ v : Val, f () = .ret v none →
      ∃ t1, (NewFutureTask f).Run = .ok t1 ∧ t1.sends = 1 ∧ t1.fCalls = 1 ∧
        t1.GetResult.map (fun r => r.2) = some (pickResult v) ∧
        (v.isFutureError = false → t1.GetResult.map (fun r => r.2) = some (v, none))) ∧
    (∀ (v : Val) (e : GoError), f () = .ret v (some e) →
      ∃ t1, (NewFutureTask f).Run = .ok t1 ∧ t1.sends = 1 ∧ t1.fCalls = 1 ∧
        t1.GetResult.map (fun r => r.2) = some (.nil, some (.futureFuncError e))) ∧
    (∀ msg : String, f () = .fault msg →
      ∃ t1, (NewFutureTask f).Run = .ok t1 ∧ t1.sends = 1 ∧ t1.fCalls = 1 ∧
        t1.GetResult.map (fun r => r.2) =
          some (.nil, some (.futureTaskError ("task.Run panic: " ++ msg)))) := by
  refine ⟨fun t h => Run_aborted t h, ?_, ?_, ?_⟩
  · intro v hf
    refine ⟨_, Run_new_value f v hf, rfl, rfl, ?_, ?_⟩
    · simp [FutureTask.GetResult, Chan.recv]
    · intro hv
      simp [FutureTask.GetResult, Chan.recv, pickResult_plain v hv]
  · intro v e hf
    refine ⟨_, Run_new_failure f v e hf, rfl, rfl, ?_⟩
    simp [FutureTask.GetResult, Chan.recv, pickResult]
  · intro msg hf
    refine ⟨_, Run_new_fault f msg hf, rfl, rfl, ?_⟩
    simp [FutureTask.GetResult, Chan.recv, pickResult]

/-- C9 (the code at the failing input).  A task completed by `Run` has its
result in the cell and is not aborted; `Abort("too late")` on it leaves the
cell and what `GetResult` returns as they are, but makes `IsAborted()` true:
the task is both completed and aborted. -/
theorem C9_abort_after_run_sets_flag :
    ((NewFutureTask returnsSeven).calls [.Run]).resultChan.buf = [.int 7] ∧
    ((NewFutureTask returnsSeven).calls [.Run]).IsAborted = false ∧
    ((NewFutureTask returnsSeven).calls [.Run, .Abort "too late"]).resultChan.buf = [.int 7] ∧
    ((NewFutureTask returnsSeven).calls [.Run, .Abort "too late"]).GetResult.map
      (fun r => r.2) = some (.int 7, none) ∧
    ((NewFutureTask returnsSeven).calls [.Run, .Abort "too late"]).IsAborted = true := by
  refine ⟨rfl, rfl, rfl, rfl, rfl⟩

/-- What `Abort` does keep, in every task state that calls on a new task
lead to: on an aborted task, whatever its cell holds, `Abort(m)` changes
nothing at all; on a task whose cell holds a result, `Abort(m)` changes at
most the flag `aborted`, so the cell and what `GetResult` and
`GetResultNoWait` return stay the same. -/
theorem Abort_keeps_result (t : FutureTask) (m : String) (hr : t.Reachable) :
    (t.IsAborted = true → t.Abort m = .ok t) ∧
    (t.resultChan.buf ≠ [] →
      t.Abort m = .ok { t with aborted := 1 } ∧
      (({ t with aborted := 1 } : FutureTask).GetResult.map (fun r => r.2)) =
        t.GetResult.map (fun r => r.2) ∧
      ({ t with aborted := 1 } : FutureTask).GetResultNoWait.2 = t.GetResultNoWait.2) := by
  have hi := inv_reachable t hr
  refine ⟨fun h => Abort_aborted t m h, fun hb => ⟨?_, ?_, ?_⟩⟩
  · rcases hi.2.2.2.2.1 with ha | ha
    · exact Abort_full t m hi ha hb
    · rw [Abort_aborted t m (by simp [FutureTask.IsAborted, ha])]
      cases t
      simp_all
  · simp only [FutureTask.GetResult]
    cases t.resultChan.recv <;> rfl
  · simp only [FutureTask.GetResultNoWait]
    cases t.resultChan.recv <;> rfl

/-! ## Lemmas on `Pool` -/

theorem closeLoop_eq {α : Type} (buf : List α) :
    ∀ (c : Chan α) (removed : Nat) (called : List α), c.buf = buf →
      Pool.closeLoop c removed called =
        ({ c with buf := [] }, removed + buf.length, called ++ buf) := by
  induction buf with
  | nil =>
    intro c removed called hb
    rw [Pool.closeLoop]
    have : c = { c with buf := [] } := by cases c; simp_all
    split
    · next task rest h => simp [Chan.recv, hb] at h; split at h <;> cases h
    · simpa using this
    · simpa using this
  | cons a l ih =>
    intro c removed called hb
    rw [Pool.closeLoop]
    split
    · next task rest h =>
      simp only [Chan.recv, hb] at h
      cases h
      rw [ih _ _ _ rfl]
      simp
      omega
    · next h => simp [Chan.recv, hb] at h
    · next h => simp [Chan.recv, hb] at h

theorem wrapInt_eq (x : Int) (h0 : -9223372036854775808 ≤ x) (h1 : x < 9223372036854775808) :
    wrapInt x = x := by
  unfold wrapInt
  omega

theorem wrapInt_le (x : Int) (h0 : 0 ≤ x) : wrapInt x ≤ x := by
  unfold wrapInt
  omega

theorem NewPool_ok {α : Type} (B W : Int) (hB : 0 ≤ B)
    (hmem : interfaceSize * B.toNat ≤ maxAlloc - hchanSize) (hW : 0 ≤ wrapInt (W - 1)) :
    NewPool α B W =
      .ok { taskChan := { buf := [], cap := B.toNat, closed := false, recvq := 0 }
            workerSemaChan :=
              { buf := [], cap := (wrapInt (W - 1)).toNat, closed := false, recvq := 0 }
            maxGoroutineNum := W
            closed := 0 } := by
  have h1 : ¬ (B < 0 ∨ maxAlloc - hchanSize < interfaceSize * B.toNat) := by omega
  have h2 : ¬ (wrapInt (W - 1) < 0 ∨ maxAlloc - hchanSize < 0 * (wrapInt (W - 1)).toNat) := by
    omega
  simp only [NewPool, makeChan, h1, h2, if_false]

theorem NewPool_cases {α : Type} (B W : Int) (p : Pool α) (h : NewPool α B W = .ok p) :
    0 ≤ B ∧ interfaceSize * B.toNat ≤ maxAlloc - hchanSize ∧ 0 ≤ wrapInt (W - 1) := by
  by_cases hB : B < 0 ∨ maxAlloc - hchanSize < interfaceSize * B.toNat
  · simp [NewPool, makeChan, hB] at h
  · by_cases hW : wrapInt (W - 1) < 0 ∨ maxAlloc - hchanSize < 0 * (wrapInt (W - 1)).toNat
    · simp only [NewPool, makeChan, hB, hW, if_false, if_true] at h
      cases h
    · omega

theorem NewPool_inv {α : Type} (B W : Int) (p : Pool α) (h : NewPool α B W = .ok p) :
    (Sys.init p).Inv B W := by
  obtain ⟨hB, hmem, hW⟩ := NewPool_cases B W p h
  rw [NewPool_ok B W hB hmem hW] at h
  cases h
  simp [Sys.Inv, Sys.init, Master.isParked]

theorem Close_open {α : Type} (p : Pool α) (h0 : p.closed = 0) (hc : p.taskChan.closed = false) :
    p.Close =
      .ok ({ p with closed := 1
                    taskChan := { p.taskChan with buf := [], closed := true, recvq := 0 } },
           { called := p.taskChan.buf, removed := some p.taskChan.buf.length }) := by
  simp [Pool.Close, Pool.IsClosed, h0, Chan.close, hc, closeLoop_eq p.taskChan.buf { p.taskChan with closed := true, recvq := 0 } 0 [] rfl]

theorem Close_closed {α : Type} (p : Pool α) (h : p.IsClosed = true) :
    p.Close = .ok (p, { called := [], removed := none }) := by
  simp [Pool.Close, h]

theorem inv_close {α : Type} (s : Sys α) (B W : Int) (h : s.Inv B W) : s.close.Inv B W := by
  obtain ⟨h1, h2, h3, h4, h5, h6, h7, h8, h9, h10, h11, h12, h13⟩ := h
  rcases h9 with hc | hc
  · have hcl : s.p.taskChan.closed = false := by simp [h10, hc]
    simp only [Sys.close, Close_open s.p hc hcl]
    refine ⟨h1, h2, h3, by simp, h5, h6, h7, h8, Or.inr rfl, rfl, fun _ => rfl, ?_, ?_⟩
    · cases hm : s.master <;> simp [Master.isParked]
    · cases hm : s.master <;> simp [Master.isParked]
  · have hcl : s.p.IsClosed = true := by simp [Pool.IsClosed, hc]
    simp only [Sys.close, Close_closed s.p hcl]
    refine ⟨h1, h2, h3, h4, h5, h6, h7, h8, Or.inr hc, h10, h11, ?_, ?_⟩
    · simpa using h12
    · simpa using h13

theorem inv_addTask {α : Type} (s : Sys α) (B W : Int) (task : α) (h : s.Inv B W) :
    (s.addTask task).1.Inv B W := by
  obtain ⟨h1, h2, h3, h4, h5, h6, h7, h8, h9, h10, h11, h12, h13⟩ := h
  simp only [Sys.addTask, Pool.AddTask, Chan.trySend]
  rcases h9 with hc | hc
  · have hcl : s.p.taskChan.closed = false := by simp [h10, hc]
    cases hm : s.master.isParked with
    | true =>
      have hq : s.p.taskChan.recvq = 1 := by simp [h12, hm]
      simp only [hcl, hq]
      simp
      refine ⟨h1, h2, h3, h4, h5, h6, h7, h8, Or.inl hc, by simp [hcl, hc], by simp [hc], ?_, ?_⟩
      · simp [Master.isParked]
      · simp [Master.isParked]
    | false =>
      have hq : s.p.taskChan.recvq = 0 := by simp [h12, hm]
      simp only [hcl, hq]
      by_cases hl : s.p.taskChan.buf.length < s.p.taskChan.cap
      · simp [hl]
        refine ⟨h1, h2, h3, by simp; omega, h5, h6, h7, h8, Or.inl hc, by simp [hcl, hc], by simp [hc],
          by simp [hm, hq], by simp [hm]⟩
      · simp [hl]
        exact ⟨h1, h2, h3, h4, h5, h6, h7, h8, Or.inl hc, h10, h11, by simp [hm, hq], by simp [hm]⟩
  · have hcl : s.p.taskChan.closed = true := by simp [h10, hc]
    simp [hcl]
    exact ⟨h1, h2, h3, h4, h5, h6, h7, h8, Or.inr hc, h10, h11, h12, h13⟩

theorem getWorkerSema_eq {α : Type} (p : Pool α) (hc : p.workerSemaChan.closed = false)
    (hq : p.workerSemaChan.recvq = 0) :
    p.getWorkerSema =
      if p.workerSemaChan.buf.length < p.workerSemaChan.cap then
        .ok ({ p with workerSemaChan :=
                { p.workerSemaChan with buf := p.workerSemaChan.buf ++ [()] } }, true)
      else .ok (p, false) := by
  simp only [Pool.getWorkerSema, Chan.trySend, hc, hq]
  by_cases hl : p.workerSemaChan.buf.length < p.workerSemaChan.cap
  · simp [hl, Sent.ok]
  · simp [hl, Sent.ok]

theorem dispatchWorker_eq {α : Type} (p : Pool α) (hc : p.workerSemaChan.closed = false)
    (hq : p.workerSemaChan.recvq = 0) :
    p.dispatchWorker =
      if p.workerSemaChan.buf.length < p.workerSemaChan.cap then
        .ok ({ p with workerSemaChan :=
                { p.workerSemaChan with buf := p.workerSemaChan.buf ++ [()] } }, true)
      else .ok (p, false) := by
  simp only [Pool.dispatchWorker, getWorkerSema_eq p hc hq]
  by_cases hl : p.workerSemaChan.buf.length < p.workerSemaChan.cap
  · simp [hl]
  · simp [hl]

theorem inv_setMaster {α : Type} (s : Sys α) (B W : Int) (m : Master α) (h : s.Inv B W)
    (hs : s.master.isParked = false) (hm : m.isParked = false) :
    ({ s with master := m } : Sys α).Inv B W := by
  obtain ⟨h1, h2, h3, h4, h5, h6, h7, h8, h9, h10, h11, h12, h13⟩ := h
  refine ⟨h1, h2, h3, h4, h5, h6, h7, h8, h9, h10, h11, ?_, ?_⟩
  · simpa [hm, hs] using h12
  · simp [hm]

theorem inv_masterStep {α : Type} (s : Sys α) (B W : Int) (h : s.Inv B W) :
    s.masterStep.Inv B W := by
  have h' := h
  obtain ⟨h1, h2, h3, h4, h5, h6, h7, h8, h9, h10, h11, h12, h13⟩ := h
  unfold Sys.masterStep
  cases hm : s.master with
  | exited => simpa using h'
  | parked => simpa using h'
  | looping =>
    have hp : s.master.isParked = false := by simp [hm, Master.isParked]
    have hq : s.p.taskChan.recvq = 0 := by simp [h12, hp]
    simp only
    by_cases hcl : s.p.IsClosed = true
    · simp only [hcl, if_true]
      exact inv_close _ B W (inv_setMaster s B W .exited h' hp rfl)
    · simp only [hcl]
      have hc0 : s.p.closed = 0 := by
        rcases h9 with hc | hc
        · exact hc
        · simp [Pool.IsClosed, hc] at hcl
      have hopen : s.p.taskChan.closed = false := by simp [h10, hc0]
      cases hb : s.p.taskChan.buf with
      | nil =>
        simp only [Chan.recv, hb, hopen]
        simp
        refine ⟨h1, h2, h3, by simp [Chan.park, hb], h5, h6, h7, h8, Or.inl hc0,
          by simp [Chan.park, hopen, hc0], by simp [hc0], by simp [Chan.park, hq, Master.isParked],
          by simp [Chan.park, hb, hc0]⟩
      | cons a l =>
        simp only [Chan.recv, hb]
        simp
        refine ⟨h1, h2, h3, ?_, h5, h6, h7, h8, Or.inl hc0, by simp [hopen, hc0], by simp [hc0],
          by simp [hq, Master.isParked], by simp [Master.isParked]⟩
        have : l.length + 1 ≤ s.p.taskChan.cap := by simpa [hb] using h4
        simp
        omega
  | holding task =>
    have hp : s.master.isParked = false := by simp [hm, Master.isParked]
    have hq : s.p.taskChan.recvq = 0 := by simp [h12, hp]
    simp only
    by_cases hl : (s.p.taskChan.len == 0) = true
    · simp only [hl, if_true]
      have := inv_setMaster s B W .looping h' hp rfl
      exact this
    · simp only [hl]
      rw [dispatchWorker_eq s.p h5 h6]
      by_cases hw : s.p.workerSemaChan.buf.length < s.p.workerSemaChan.cap
      · simp only [hw, if_true]
        simp
        refine ⟨h1, h2, h3, h4, h5, h6, by simp; omega, by simp [h8], h9, h10, h11,
          by simp [Master.isParked, hq], by simp [Master.isParked]⟩
      · simp only [hw]
        simp
        have := inv_setMaster s B W .looping h' hp rfl
        exact this

theorem inv_workerStep {α : Type} (s : Sys α) (B W : Int) (h : s.Inv B W) :
    s.workerStep.Inv B W := by
  have h' := h
  obtain ⟨h1, h2, h3, h4, h5, h6, h7, h8, h9, h10, h11, h12, h13⟩ := h
  unfold Sys.workerStep
  by_cases hw : s.workers = 0
  · simpa [hw] using h'
  · simp only [hw, if_false]
    have hleave : ({ s with p := s.p.returnWorkerSema.1, workers := s.workers - 1 } : Sys α).Inv B W := by
      cases hb : s.p.workerSemaChan.buf with
      | nil => rw [hb] at h8; simp at h8; exact absurd h8 hw
      | cons a l =>
        simp only [Pool.returnWorkerSema, Chan.recv, hb]
        refine ⟨h1, h2, h3, h4, h5, h6, ?_, ?_, h9, h10, h11, h12, h13⟩
        · have : l.length + 1 ≤ s.p.workerSemaChan.cap := by simpa [hb] using h7
          simp
          omega
        · simp [h8, hb]
    by_cases hcl : s.p.IsClosed = true
    · simpa [hcl] using hleave
    · simp only [hcl]
      have hc0 : s.p.closed = 0 := by
        rcases h9 with hc | hc
        · exact hc
        · simp [Pool.IsClosed, hc] at hcl
      cases hb : s.p.taskChan.buf with
      | nil =>
        simp only [Chan.recv, hb]
        cases hclosed : s.p.taskChan.closed <;> simpa using hleave
      | cons a l =>
        simp only [Chan.recv, hb]
        simp
        have hnp : s.master.isParked = false := by
          cases hmp : s.master.isParked with
          | false => rfl
          | true => have := (h13 hmp).1; rw [hb] at this; cases this
        refine ⟨h1, h2, h3, ?_, h5, h6, h7, h8, h9, by simpa using h10, by simp [hc0],
          by simpa using h12, by simp [hnp]⟩
        have : l.length + 1 ≤ s.p.taskChan.cap := by simpa [hb] using h4
        simp
        omega

theorem inv_step {α : Type} (s : Sys α) (B W : Int) (a : Step α) (h : s.Inv B W) :
    (s.step a).Inv B W := by
  cases a with
  | addTask task => exact inv_addTask s B W task h
  | close => exact inv_close s B W h
  | master => exact inv_masterStep s B W h
  | worker => exact inv_workerStep s B W h

theorem inv_steps {α : Type} (B W : Int) (as : List (Step α)) :
    ∀ s : Sys α, s.Inv B W → (s.steps as).Inv B W := by
  induction as with
  | nil => intro s h; exact h
  | cons a as ih => intro s h; exact ih _ (inv_step s B W a h)

/-! ## C10, C5: `NewPool` and `AddTask` on a closed pool -/

/-- C10 (counterexample).  `NewPool(10, 0)` and `NewPool(10, -3)` fault in
`make(chan struct{}, maxGoroutineNum-1)`: there is no clamping to 1.  And
`NewPool(MaxInt64, 1)` faults in `make(chan Task, maxBuffer)` although
`maxBuffer ≥ 0`. -/
theorem C10_counterexample_nonpositive_faults :
    NewPool Nat 10 0 = .error .makechanSizeOutOfRange ∧
    NewPool Nat 10 (-3) = .error .makechanSizeOutOfRange ∧
    NewPool Nat 9223372036854775807 1 = .error .makechanSizeOutOfRange := by
  refine ⟨?_, ?_, ?_⟩ <;>
    simp [NewPool, makeChan, wrapInt, interfaceSize, maxAlloc, hchanSize]

/-- C10 (amended).  For all `int` values `maxBuffer` and `maxGoroutineNum`:
when `maxBuffer ≥ 0` is a size that `make(chan Task, maxBuffer)` accepts and
`maxGoroutineNum ≥ 1`, `NewPool` returns an open pool with empty channels,
whose permit channel has capacity
`maxGoroutineNum - 1 = max(maxGoroutineNum, 1) - 1` and whose task channel has
capacity `maxBuffer`; when `maxGoroutineNum ≤ 0` it faults with
`makechan: size out of range` (but for the least `int`, where
`maxGoroutineNum-1` wraps around to the greatest `int`, which `make` accepts
for `struct{}` elements); and it faults whenever `make` rejects `maxBuffer`. -/
theorem C10_NewPool_needs_positive_bound (α : Type) (maxBuffer maxGoroutineNum : Int)
    (hW : isGoInt maxGoroutineNum) :
    (0 ≤ maxBuffer → interfaceSize * maxBuffer.toNat ≤ maxAlloc - hchanSize →
      1 ≤ maxGoroutineNum →
      ∃ p : Pool α, NewPool α maxBuffer maxGoroutineNum = .ok p ∧
        (p.workerSemaChan.cap : Int) = max maxGoroutineNum 1 - 1 ∧
        (p.taskChan.cap : Int) = maxBuffer ∧
        p.maxGoroutineNum = maxGoroutineNum ∧ p.IsClosed = false ∧
        p.taskChan.buf = [] ∧ p.workerSemaChan.buf = []) ∧
    (-9223372036854775808 < maxGoroutineNum → maxGoroutineNum ≤ 0 →
      NewPool α maxBuffer maxGoroutineNum = .error .makechanSizeOutOfRange) ∧
    (0 ≤ maxBuffer → interfaceSize * maxBuffer.toNat ≤ maxAlloc - hchanSize →
      maxGoroutineNum = -9223372036854775808 →
      ∃ p : Pool α, NewPool α maxBuffer maxGoroutineNum = .ok p ∧
        (p.workerSemaChan.cap : Int) = 9223372036854775807) ∧
    ((maxBuffer < 0 ∨ maxAlloc - hchanSize < interfaceSize * maxBuffer.toNat) →
      NewPool α maxBuffer maxGoroutineNum = .error .makechanSizeOutOfRange) := by
  obtain ⟨hlo, hhi⟩ := hW
  refine ⟨?_, ?_, ?_, ?_⟩
  · intro hB hmem h1
    have hw : wrapInt (maxGoroutineNum - 1) = maxGoroutineNum - 1 :=
      wrapInt_eq _ (by omega) (by omega)
    refine ⟨_, NewPool_ok maxBuffer maxGoroutineNum hB hmem (by omega), ?_, ?_,
      rfl, rfl, rfl, rfl⟩
    · simp only []
      rw [hw, max_eq_left h1]
      omega
    · simp only []
      omega
  · intro hgt hle
    have hw : wrapInt (maxGoroutineNum - 1) = maxGoroutineNum - 1 :=
      wrapInt_eq _ (by omega) (by omega)
    have h2 : wrapInt (maxGoroutineNum - 1) < 0 := by omega
    by_cases hB : maxBuffer < 0 ∨ maxAlloc - hchanSize < interfaceSize * maxBuffer.toNat
    · simp [NewPool, makeChan, hB]
    · simp [NewPool, makeChan, hB, h2]
  · intro hB hmem hmin
    have hw : wrapInt (maxGoroutineNum - 1) = 9223372036854775807 := by
      subst hmin
      unfold wrapInt
      omega
    refine ⟨_, NewPool_ok maxBuffer maxGoroutineNum hB hmem (by omega), ?_⟩
    simp only []
    omega
  · intro hB
    simp [NewPool, makeChan, hB]

/-- C10 (witness).  `NewPool(10, 2)` succeeds with one permit. -/
theorem C10_NewPool_needs_positive_bound_witness :
    ∃ p : Pool Nat, NewPool Nat 10 2 = .ok p ∧ (p.workerSemaChan.cap : Int) = max 2 1 - 1 := by
  obtain ⟨p, h1, h2, -⟩ :=
    (C10_NewPool_needs_positive_bound Nat 10 2 (by unfold isGoInt; omega)).1 (by decide)
      (by decide) (by decide)
  exact ⟨p, h1, h2⟩

/-- C5 (counterexample).  On the pool `NewPool(10, 2)` after `Close`,
`Pool.AddTask`, `AsyncExecutor.AddTask` and `FutureExecutor.AddTask` all end
in the fault `send on closed channel` instead of returning `false`. -/
theorem C5_counterexample_addTask_after_close_faults :
    NewPool Nat 10 2 = .ok poolTenTwo ∧
    ((Sys.init poolTenTwo).steps [.close]).p.IsClosed = true ∧
    ((Sys.init poolTenTwo).steps [.close]).p.AddTask 7 = .error .sendOnClosedChannel ∧
    (match (NewAsyncExecutor ((Sys.init poolTenTwo).steps [.close]).p).AddTask 7 with
      | .error x => x = .sendOnClosedChannel
      | .ok _ => False) ∧
    ((NewFutureExecutor ((Sys.init poolTenTwo).steps [.close]).p).AddTask returnsSeven).2 =
      some .sendOnClosedChannel := by
  refine ⟨rfl, ?_, ?_, ?_, ?_⟩
  · simp [Sys.steps, Sys.step, Sys.close, Sys.init, Close_open, poolTenTwo, Pool.IsClosed]
  · simp [Sys.steps, Sys.step, Sys.close, Sys.init, Close_open, poolTenTwo, Pool.AddTask,
      Chan.trySend]
  · simp [Sys.steps, Sys.step, Sys.close, Sys.init, Close_open, poolTenTwo, Pool.AddTask,
      Chan.trySend, AsyncExecutor.AddTask, NewAsyncExecutor]
  · simp [Sys.steps, Sys.step, Sys.close, Sys.init, Close_open, poolTenTwo, Pool.AddTask,
      Chan.trySend, FutureExecutor.AddTask, NewFutureExecutor]

/-- C5 (amended).  In every state of a pool created by `NewPool` in which
the pool is closed, and for every task: `Pool.AddTask`, and with it
`AsyncExecutor.AddTask` and `FutureExecutor.AddTask` on that pool, ends in the
fault `send on closed channel`; the task is not enqueued and the state of the
pool is not changed. -/
theorem C5_addTask_on_closed_pool_faults (maxBuffer maxGoroutineNum : Int) (p0 : Pool Nat)
    (steps : List (Step Nat)) (task : Nat) (f : FutureFunc) (tasks : List FutureTask)
    (hnew : NewPool Nat maxBuffer maxGoroutineNum = .ok p0)
    (hclosed : ((Sys.init p0).steps steps).p.IsClosed = true) :
    ((Sys.init p0).steps steps).p.AddTask task = .error .sendOnClosedChannel ∧
    ((Sys.init p0).steps steps).addTask task = ((Sys.init p0).steps steps, none) ∧
    ((Sys.init p0).steps steps).p.taskChan.buf = [] ∧
    (∃ x, (AsyncExecutor.AddTask { p := ((Sys.init p0).steps steps).p } task) = .error x ∧
      x = .sendOnClosedChannel) ∧
    FutureExecutor.AddTask { p := ((Sys.init p0).steps steps).p, tasks := tasks } f =
      ({ p := ((Sys.init p0).steps steps).p, tasks := tasks ++ [NewFutureTask f] },
        some .sendOnClosedChannel) := by
  have hi := inv_steps maxBuffer maxGoroutineNum steps _ (NewPool_inv _ _ _ hnew)
  obtain ⟨-, -, -, -, -, -, -, -, -, h10, h11, -, -⟩ := hi
  have hc : ((Sys.init p0).steps steps).p.closed = 1 := by
    simpa [Pool.IsClosed] using hclosed
  have hcl : ((Sys.init p0).steps steps).p.taskChan.closed = true := by simp [h10, hc]
  have hadd : ((Sys.init p0).steps steps).p.AddTask task = .error .sendOnClosedChannel := by
    simp [Pool.AddTask, Chan.trySend, hcl]
  refine ⟨hadd, ?_, h11 hc, ?_, ?_⟩
  · simp [Sys.addTask, hadd]
  · exact ⟨_, by simp [AsyncExecutor.AddTask, hadd], rfl⟩
  · simp [FutureExecutor.AddTask, Pool.AddTask, Chan.trySend, hcl]

/-- C5 (witness).  The pool `NewPool(10, 2)` with two tasks queued, closed. -/
theorem C5_addTask_on_closed_pool_faults_witness :
    ((Sys.init poolTenTwo).steps [.addTask 0, .addTask 1, .close]).p.AddTask 7 =
      .error .sendOnClosedChannel :=
  (C5_addTask_on_closed_pool_faults 10 2 poolTenTwo [.addTask 0, .addTask 1, .close] 7
    returnsSeven [] rfl
    (by simp [Sys.steps, Sys.step, Sys.addTask, Sys.close, Sys.init, Close_open, poolTenTwo,
      Pool.IsClosed, Pool.AddTask, Chan.trySend, Sent.ok, Master.isParked])).1

/-! ## C3, C4, C6: the queue bound, the worker bound, and `Close` -/

/-- C3 (counterexample).  `NewPool(0, 1)`: once the master is parked in its
receive, the queue holds `n = 0 = B` tasks, the pool is open, and `AddTask`
returns `true`: the task is handed to the master, the queue stays empty. -/
theorem C3_counterexample_handoff_at_capacity_zero :
    NewPool Nat 0 1 = .ok poolZeroOne ∧
    ((Sys.init poolZeroOne).steps [.master]).p.IsClosed = false ∧
    ((Sys.init poolZeroOne).steps [.master]).p.taskChan.len = 0 ∧
    ((Sys.init poolZeroOne).steps [.master]).p.taskChan.cap = 0 ∧
    (((Sys.init poolZeroOne).steps [.master]).addTask 5).2 = some true ∧
    (((Sys.init poolZeroOne).steps [.master]).addTask 5).1.master = .holding 5 ∧
    (((Sys.init poolZeroOne).steps [.master]).addTask 5).1.p.taskChan.buf = [] := by
  refine ⟨rfl, rfl, rfl, rfl, rfl, rfl, rfl⟩

/-- C3 (amended).  In every state of a pool created by `NewPool` with buffer
capacity `B`, holding `n` queued tasks: `n ≤ B`.  When the pool is open and
the master is not parked in its receive, `AddTask(t)` returns `true` and
appends `t` at the tail of the queue if `n < B`, and returns `false` leaving
the pool unchanged if `n = B`.  When the master is parked, the queue is empty
and `AddTask(t)` returns `true`, handing `t` to the master without changing
the queue (the only way to succeed when `B = 0`).  When `B ≥ 1` and `n = B`,
`AddTask` returns `false` whatever the master does. -/
theorem C3_queue_bounded {α : Type} (maxBuffer maxGoroutineNum : Int) (p0 : Pool α)
    (steps : List (Step α)) (t : α)
    (hnew : NewPool α maxBuffer maxGoroutineNum = .ok p0) :
    (((Sys.init p0).steps steps).p.taskChan.len : Int) ≤ maxBuffer ∧
    (((Sys.init p0).steps steps).p.IsClosed = false →
      (((Sys.init p0).steps steps).master.isParked = false →
        ((((Sys.init p0).steps steps).p.taskChan.len : Int) < maxBuffer →
          ((Sys.init p0).steps steps).p.AddTask t =
            .ok ({ ((Sys.init p0).steps steps).p with
                    taskChan := { ((Sys.init p0).steps steps).p.taskChan with
                      buf := ((Sys.init p0).steps steps).p.taskChan.buf ++ [t] } }, true)) ∧
        ((((Sys.init p0).steps steps).p.taskChan.len : Int) = maxBuffer →
          ((Sys.init p0).steps steps).p.AddTask t = .ok (((Sys.init p0).steps steps).p, false))) ∧
      (((Sys.init p0).steps steps).master.isParked = true →
        ((Sys.init p0).steps steps).p.taskChan.buf = [] ∧
        (((Sys.init p0).steps steps).addTask t).2 = some true ∧
        (((Sys.init p0).steps steps).addTask t).1.master = .holding t ∧
        (((Sys.init p0).steps steps).addTask t).1.p.taskChan.buf = []) ∧
      (1 ≤ maxBuffer → (((Sys.init p0).steps steps).p.taskChan.len : Int) = maxBuffer →
        ((Sys.init p0).steps steps).p.AddTask t =
          .ok (((Sys.init p0).steps steps).p, false))) := by
  have hi := inv_steps maxBuffer maxGoroutineNum steps _ (NewPool_inv _ _ _ hnew)
  obtain ⟨hB, -⟩ := NewPool_cases _ _ _ hnew
  generalize (Sys.init p0).steps steps = s at hi ⊢
  obtain ⟨h1, -, -, h4, -, -, -, -, h9, h10, -, h12, h13⟩ := hi
  have hcap : (s.p.taskChan.cap : Int) = maxBuffer := by rw [h1]; omega
  refine ⟨by simp only [Chan.len]; omega, ?_⟩
  intro hopen
  have hc0 : s.p.closed = 0 := by
    rcases h9 with hc | hc
    · exact hc
    · simp [Pool.IsClosed, hc] at hopen
  have hcl : s.p.taskChan.closed = false := by simp [h10, hc0]
  have hfull : s.master.isParked = false → (s.p.taskChan.len : Int) = maxBuffer →
      s.p.AddTask t = .ok (s.p, false) := by
    intro hm hn
    have hq : s.p.taskChan.recvq = 0 := by simp [h12, hm]
    have hl : ¬ s.p.taskChan.buf.length < s.p.taskChan.cap := by
      simp only [Chan.len] at hn; omega
    simp [Pool.AddTask, Chan.trySend, hcl, hq, hl, Sent.ok]
  refine ⟨fun hm => ⟨?_, hfull hm⟩, ?_, ?_⟩
  · intro hn
    have hq : s.p.taskChan.recvq = 0 := by simp [h12, hm]
    have hl : s.p.taskChan.buf.length < s.p.taskChan.cap := by
      simp only [Chan.len] at hn; omega
    simp [Pool.AddTask, Chan.trySend, hcl, hq, hl, Sent.ok]
  · intro hm
    have hq : s.p.taskChan.recvq = 1 := by simp [h12, hm]
    have hb := (h13 hm).1
    refine ⟨hb, ?_, ?_, ?_⟩
    · simp [Sys.addTask, Pool.AddTask, Chan.trySend, hcl, hq, Sent.ok, hm]
    · simp [Sys.addTask, Pool.AddTask, Chan.trySend, hcl, hq, Sent.ok, hm]
    · simp [Sys.addTask, Pool.AddTask, Chan.trySend, hcl, hq, Sent.ok, hm, hb]
  · intro hB1 hn
    cases hm : s.master.isParked with
    | false => exact hfull hm hn
    | true =>
      have hb := (h13 hm).1
      simp only [Chan.len, hb] at hn
      simp at hn
      omega

/-- C3 (witness).  Scenario C: on `NewPool(10, 1)`, ten tasks are queued and
none is taken out; the eleventh `AddTask` returns `false`. -/
theorem C3_queue_bounded_witness :
    ((Sys.init poolTenOne).steps tenAddTasks).p.taskChan.len = 10 ∧
    ((Sys.init poolTenOne).steps tenAddTasks).p.AddTask 10 =
      .ok (((Sys.init poolTenOne).steps tenAddTasks).p, false) :=
  ⟨rfl, (C3_queue_bounded 10 1 poolTenOne tenAddTasks 10 rfl).2 rfl |>.2.2 (by decide) rfl⟩

theorem ran_onMaster_step {α : Type} (s : Sys α) (B : Int) (a : Step α) (h : s.Inv B 1)
    (hr : ∀ r ∈ s.ran, r.isOnMaster = true) : ∀ r ∈ (s.step a).ran, r.isOnMaster = true := by
  obtain ⟨-, h2, -, -, h5, h6, h7, h8, -, -, -, -, -⟩ := h
  have hcap : s.p.workerSemaChan.cap = 0 := by simpa using h2
  have hw : s.workers = 0 := by omega
  have hlt : ¬ s.p.workerSemaChan.buf.length < s.p.workerSemaChan.cap := by omega
  cases a with
  | addTask task =>
    simp only [Sys.step, Sys.addTask]
    split
    · exact hr
    · split <;> exact hr
  | close =>
    simp only [Sys.step, Sys.close]
    split <;> exact hr
  | worker => simpa [Sys.step, Sys.workerStep, hw] using hr
  | master =>
    simp only [Sys.step, Sys.masterStep]
    split
    · exact hr
    · exact hr
    · split
      · simp only [Sys.close]; split <;> exact hr
      · split
        · exact hr
        · simp only [Sys.close]; split <;> exact hr
        · exact hr
    · split
      · intro r hmem
        rcases List.mem_cons.1 hmem with rfl | hmem
        · rfl
        · exact hr r hmem
      · rw [dispatchWorker_eq s.p h5 h6]
        simp only [hlt, if_false]
        intro r hmem
        simp at hmem
        rcases hmem with rfl | hmem
        · rfl
        · exact hr r hmem

theorem ran_onMaster_steps {α : Type} (B : Int) (as : List (Step α)) :
    ∀ s : Sys α, s.Inv B 1 → (∀ r ∈ s.ran, r.isOnMaster = true) →
      ∀ r ∈ (s.steps as).ran, r.isOnMaster = true := by
  induction as with
  | nil => intro s _ hr; exact hr
  | cons a as ih =>
    intro s h hr
    exact ih _ (inv_step s B 1 a h) (ran_onMaster_step s B a h hr)

/-- C4.  In every state of a pool created by `NewPool` with
`maxGoroutineNum = W ≥ 1`, reached by any sequence of `AddTask` calls, `Close`
calls, master steps (with `dispatchWorker` and `getWorkerSema`) and worker
turns (with `returnWorkerSema` when the worker ends): the live workers are
exactly the permits held, they are at most `W - 1`, so with the master at most
`W` goroutines run tasks; and when `W = 1`, `getWorkerSema` returns `false`
without changing the pool, no worker is alive, and every task that was run
was run by the master. -/
theorem C4_workers_bounded {α : Type} (maxBuffer W : Int) (p0 : Pool α)
    (steps : List (Step α)) (hnew : NewPool α maxBuffer W = .ok p0) (hW : 1 ≤ W) :
    ((Sys.init p0).steps steps).workers = ((Sys.init p0).steps steps).p.workerSemaChan.len ∧
    (((Sys.init p0).steps steps).workers : Int) ≤ W - 1 ∧
    (((Sys.init p0).steps steps).workers : Int) + 1 ≤ W ∧
    (W = 1 →
      ((Sys.init p0).steps steps).p.getWorkerSema = .ok (((Sys.init p0).steps steps).p, false) ∧
      ((Sys.init p0).steps steps).workers = 0 ∧
      ∀ r ∈ ((Sys.init p0).steps steps).ran, r.isOnMaster = true) := by
  have hi0 := NewPool_inv _ _ _ hnew
  have hi := inv_steps maxBuffer W steps _ hi0
  have hran : W = 1 → ∀ r ∈ ((Sys.init p0).steps steps).ran, r.isOnMaster = true := by
    intro h1
    subst h1
    exact ran_onMaster_steps maxBuffer steps _ hi0 (by simp [Sys.init])
  generalize (Sys.init p0).steps steps = s at hi hran ⊢
  obtain ⟨-, h2, -, -, h5, h6, h7, h8, -, -, -, -, -⟩ := hi
  have hwrap := wrapInt_le (W - 1) (by omega)
  have hle : (s.workers : Int) ≤ W - 1 := by
    rw [h8]
    have : (s.p.workerSemaChan.cap : Int) ≤ W - 1 := by rw [h2]; omega
    omega
  refine ⟨h8, hle, by omega, ?_⟩
  intro h1
  have hz : s.workers = 0 := by omega
  refine ⟨?_, hz, hran h1⟩
  rw [getWorkerSema_eq s.p h5 h6]
  have : ¬ s.p.workerSemaChan.buf.length < s.p.workerSemaChan.cap := by
    have hc : s.p.workerSemaChan.cap = 0 := by
      rw [h2, h1]
      rfl
    omega
  simp [this]

/-- C4 (witness).  On `NewPool(10, 2)` three tasks are queued; the master
takes the first while two remain queued and starts a worker with it, then
takes the second while one remains queued, finds no permit and runs it
itself: one live worker, one permit held. -/
theorem C4_workers_bounded_witness :
    ((Sys.init poolTenTwo).steps
      [.addTask 0, .addTask 1, .addTask 2, .master, .master, .master, .master]).ran =
        [.onMaster 1, .onWorker 0] ∧
    ((Sys.init poolTenTwo).steps
      [.addTask 0, .addTask 1, .addTask 2, .master, .master, .master, .master]).workers = 1 ∧
    ((Sys.init poolTenTwo).steps
      [.addTask 0, .addTask 1, .addTask 2, .master, .master, .master, .master]).workers =
    ((Sys.init poolTenTwo).steps
      [.addTask 0, .addTask 1, .addTask 2, .master, .master, .master, .master]).p.workerSemaChan.len :=
  ⟨rfl, rfl, (C4_workers_bounded 10 2 poolTenTwo
    [.addTask 0, .addTask 1, .addTask 2, .master, .master, .master, .master] rfl
    (by decide)).1⟩

/-- C6.  In every state of a pool created by `NewPool` in which the pool is
open and its queue holds the tasks `t_1..t_M`: `Close` invokes
`PoolCloseCallBack` on exactly `t_1..t_M`, once each and in queue order,
counts `removed = M`, and leaves the pool closed with an empty queue; a
further `Close` on the closed pool invokes no callback, does not reach the
loop, and leaves the pool as it is. -/
theorem C6_close_drains_queue {α : Type} (maxBuffer maxGoroutineNum : Int) (p0 : Pool α)
    (steps : List (Step α)) (hnew : NewPool α maxBuffer maxGoroutineNum = .ok p0)
    (hopen : ((Sys.init p0).steps steps).p.IsClosed = false) :
    ∃ p1 : Pool α,
      ((Sys.init p0).steps steps).p.Close =
        .ok (p1, { called := ((Sys.init p0).steps steps).p.taskChan.buf
                   removed := some ((Sys.init p0).steps steps).p.taskChan.buf.length }) ∧
      p1.IsClosed = true ∧ p1.taskChan.buf = [] ∧ p1.taskChan.closed = true ∧
      p1.workerSemaChan = ((Sys.init p0).steps steps).p.workerSemaChan ∧
      p1.Close = .ok (p1, { called := [], removed := none }) ∧
      ((Sys.init p0).steps steps).close.called =
        ((Sys.init p0).steps steps).called ++ ((Sys.init p0).steps steps).p.taskChan.buf := by
  have hi := inv_steps maxBuffer maxGoroutineNum steps _ (NewPool_inv _ _ _ hnew)
  generalize (Sys.init p0).steps steps = s at hi hopen ⊢
  obtain ⟨-, -, -, -, -, -, -, -, h9, h10, -, -, -⟩ := hi
  have hc0 : s.p.closed = 0 := by
    rcases h9 with hc | hc
    · exact hc
    · simp [Pool.IsClosed, hc] at hopen
  have hcl : s.p.taskChan.closed = false := by simp [h10, hc0]
  refine ⟨_, Close_open s.p hc0 hcl, rfl, rfl, rfl, rfl, Close_closed _ rfl, ?_⟩
  simp [Sys.close, Close_open s.p hc0 hcl]

/-- C6 (witness).  On `NewPool(10, 2)` with the tasks 0, 1, 2 queued, `Close`
calls back 0, 1, 2 in this order and counts 3. -/
theorem C6_close_drains_queue_witness :
    ∃ p1 : Pool Nat,
      ((Sys.init poolTenTwo).steps [.addTask 0, .addTask 1, .addTask 2]).p.Close =
        .ok (p1, { called := [0, 1, 2], removed := some 3 }) ∧
      p1.Close = .ok (p1, { called := [], removed := none }) := by
  obtain ⟨p1, h1, -, -, -, -, h2, -⟩ :=
    C6_close_drains_queue 10 2 poolTenTwo [.addTask 0, .addTask 1, .addTask 2] rfl rfl
  exact ⟨p1, h1, h2⟩

/-! ## Lemmas on `FutureExecutor` -/

end Grpool
